import Mathlib

/-!
Shallow embedding of the freegames repository: the two-dimensional `vector`
class of `freegames/utils.py` and the timed game loop of `freegames/flappy.py`.

Modelling conventions:
* Python floats are modelled as rational numbers, so arithmetic is exact.
* `round(value, 9)` is modelled by `round9`, rounding to 9 decimal digits.
* Python division on rationals is modelled by the total field division of ℚ
  (a zero divisor never occurs in this repository).
* `ValueError(cannot ... after hashing)` raised by the mutating methods is the
  frozen-mutation failure of the specification; fallible methods return
  `Except Err vector` instead of raising.
* The built-in hash of a pair of floats is opaque; `pairHash` is a concrete
  computable stand-in for it.  No claim depends on the hash value itself, only
  on the caching and freezing behaviour of `__hash__`.
* `math.cos` and `math.sin` are transcendental, so `rotate` receives the
  cosine and the sine of the angle as parameters; the frozen check and the
  update formulas are taken verbatim from the source.
* `abs(v)` in the source is `(v._x ** 2 + v._y ** 2) ** 0.5`; the embedding
  works with its square `absSq`, and every comparison `abs(d) > 15` of the
  source is embedded as the equivalent `absSq d > 225` (both sides of the
  original comparison are nonnegative, and squaring is strictly monotone
  there).
-/

/-- Rounding to 9 decimal digits: the model of the `round(value, 9)` calls in
the component getters of `vector` (rounding of the scaled value to a nearby
integer; the Python tie-break to even can differ from this one only at exact
ties, which no claim exercises). -/
def round9 (q : ℚ) : ℚ := (((q * 10 ^ 9 + 1 / 2).floor : ℤ) : ℚ) / 10 ^ 9

deriving instance DecidableEq for Except

set_option maxRecDepth 100000

/-- Error taxonomy of the specification.  The source raises `ValueError` for a
mutation of a hashed vector, `IndexError` for a bad index. -/
inductive Err where
  | frozenMutation
  | indexOutOfRange
  | typeMismatch
deriving DecidableEq

/-- Stand-in for the built-in hash of the rounded component pair.  The claims
depend only on the fact that `__hash__` caches some integer, never on its
value. -/
def pairHash (x y : ℚ) : ℤ := x.num + 31 * (x.den : ℤ) + 1009 * y.num + 2003 * (y.den : ℤ)

/-- The `vector` class of `freegames/utils.py`: slots `_x`, `_y`, `_hash`,
with `_hash` initialised to `None` and set by the first `__hash__` call. -/
structure vector where
  _x : ℚ
  _y : ℚ
  _hash : Option ℤ
deriving DecidableEq

/-- An operand of the arithmetic methods: the source branches on
`isinstance(other, vector)`, a non-vector operand being broadcast as a
scalar. -/
inductive Operand where
  | vec (w : vector)
  | scalar (q : ℚ)
deriving DecidableEq

namespace vector

/-- `__init__`: stores the components at full precision, `_hash = None`. -/
def init (x y : ℚ) : vector := ⟨x, y, none⟩

/-- The `x` property getter: `round(self._x, 9)`. -/
def x (v : vector) : ℚ := round9 v._x

/-- The `y` property getter: `round(self._y, 9)`. -/
def y (v : vector) : ℚ := round9 v._y

/-- The `x` property setter: fails after hashing, else stores the value at
full precision. -/
def setX (v : vector) (value : ℚ) : Except Err vector :=
  if v._hash.isSome then .error .frozenMutation
  else .ok { v with _x := value }

/-- The `y` property setter: fails after hashing, else stores the value at
full precision. -/
def setY (v : vector) (value : ℚ) : Except Err vector :=
  if v._hash.isSome then .error .frozenMutation
  else .ok { v with _y := value }

/-- `__hash__`: on the first call, hashes the rounded component pair and
caches the result; later calls return the cache.  Returns the (possibly
updated) instance together with the hash value. -/
def hash (v : vector) : vector × ℤ :=
  match v._hash with
  | some h => (v, h)
  | none => ({ v with _hash := some (pairHash v.x v.y) }, pairHash v.x v.y)

/-- `copy`: a fresh instance with the same unrounded components and
`_hash = None`. -/
def copy (v : vector) : vector := init v._x v._y

/-- `__iadd__`: frozen check first, then component-wise or broadcast
addition on the unrounded slots. -/
def iadd (v : vector) (other : Operand) : Except Err vector :=
  if v._hash.isSome then .error .frozenMutation
  else match other with
    | .vec w => .ok { v with _x := v._x + w._x, _y := v._y + w._y }
    | .scalar q => .ok { v with _x := v._x + q, _y := v._y + q }

/-- `__add__`: `self.copy().__iadd__(other)`. -/
def add (v : vector) (other : Operand) : Except Err vector := v.copy.iadd other

/-- `move`: in-place addition (the source calls `__iadd__` and discards the
returned reference). -/
def move (v : vector) (other : Operand) : Except Err vector := v.iadd other

/-- `__isub__`: frozen check first, then component-wise or broadcast
subtraction on the unrounded slots. -/
def isub (v : vector) (other : Operand) : Except Err vector :=
  if v._hash.isSome then .error .frozenMutation
  else match other with
    | .vec w => .ok { v with _x := v._x - w._x, _y := v._y - w._y }
    | .scalar q => .ok { v with _x := v._x - q, _y := v._y - q }

/-- `__sub__`: `self.copy().__isub__(other)`. -/
def sub (v : vector) (other : Operand) : Except Err vector := v.copy.isub other

/-- `__imul__`: frozen check first, then component-wise or broadcast
multiplication on the unrounded slots. -/
def imul (v : vector) (other : Operand) : Except Err vector :=
  if v._hash.isSome then .error .frozenMutation
  else match other with
    | .vec w => .ok { v with _x := v._x * w._x, _y := v._y * w._y }
    | .scalar q => .ok { v with _x := v._x * q, _y := v._y * q }

/-- `__mul__`: `self.copy().__imul__(other)`. -/
def mul (v : vector) (other : Operand) : Except Err vector := v.copy.imul other

/-- `__itruediv__`: frozen check first, then component-wise or broadcast
division on the unrounded slots (total ℚ division; zero divisors never occur
in this repository). -/
def idiv (v : vector) (other : Operand) : Except Err vector :=
  if v._hash.isSome then .error .frozenMutation
  else match other with
    | .vec w => .ok { v with _x := v._x / w._x, _y := v._y / w._y }
    | .scalar q => .ok { v with _x := v._x / q, _y := v._y / q }

/-- `__truediv__`: `self.copy().__itruediv__(other)`. -/
def div (v : vector) (other : Operand) : Except Err vector := v.copy.idiv other

/-- `__neg__`: copies, then flips the sign of both unrounded slots of the
copy. -/
def neg (v : vector) : vector := { v.copy with _x := -v.copy._x, _y := -v.copy._y }

/-- The square of `__abs__`: the source returns the square root of this
quantity, computed from the unrounded slots. -/
def absSq (v : vector) : ℚ := v._x ^ 2 + v._y ^ 2

/-- `rotate`: frozen check first, then the counter-clockwise rotation
formulas on the unrounded slots.  `cosine` and `sine` stand for the cosine
and sine of the angle converted to radians. -/
def rotate (v : vector) (cosine sine : ℚ) : Except Err vector :=
  if v._hash.isSome then .error .frozenMutation
  else .ok { v with _x := v._x * cosine - v._y * sine, _y := v._y * cosine + v._x * sine }

/-- What a rich-comparison method may return: a boolean, or the
`NotImplemented` sentinel that makes the interpreter fall back to the default
comparison. -/
inductive CmpResult where
  | val (b : Bool)
  | notImplemented
deriving DecidableEq

/-- `__eq__`: rounded components must both match for a vector operand;
returns `NotImplemented` for a non-vector operand. -/
def eqOp (v : vector) (other : Operand) : CmpResult :=
  match other with
  | .vec w => .val (decide (v.x = w.x ∧ v.y = w.y))
  | .scalar _ => .notImplemented

/-- `__ne__` as written in the source: logical AND between the component
mismatches; returns `NotImplemented` for a non-vector operand. -/
def neOp (v : vector) (other : Operand) : CmpResult :=
  match other with
  | .vec w => .val (decide (v.x ≠ w.x ∧ v.y ≠ w.y))
  | .scalar _ => .notImplemented

/-- The `==` expression: when both sides answer `NotImplemented` the
interpreter falls back to identity, and a vector is never the same object as
a non-vector operand, so the fallback yields `False` silently (no error). -/
def pyEq (v : vector) (other : Operand) : Bool :=
  match eqOp v other with
  | .val b => b
  | .notImplemented => false

/-- The `!=` expression: the identity fallback for distinct objects yields
`True` silently (no error). -/
def pyNe (v : vector) (other : Operand) : Bool :=
  match neOp v other with
  | .val b => b
  | .notImplemented => true

end vector


/-!
Embedding of `freegames/flappy.py`.  The ambient randomness is passed in as
data: `r` is the draw of `randrange(15)` (spawn happens iff it equals 0) and
`yr` is the draw of `randrange(-199, 199)` used as the vertical coordinate of
a spawned ball.  The turtle drawing calls have no effect on the game state
and are omitted; `ontimer(draw, 50)` is reflected in the scheduling result of
`tick`.
-/

/-- The mutable state of the game: the controlled `bird` and the insertion-
ordered list of obstacle `balls` (oldest first). -/
structure SimState where
  bird : vector
  balls : List vector
deriving DecidableEq

/-- The displacement applied by `tap`: `vector(0, 30)`. -/
def up : vector := vector.init 0 30

/-- `tap`: `bird.move(vector(0, 30))`. -/
def tapMove (b : vector) : Except Err vector := b.move (.vec up)

/-- `inside(point)`: `-200 < point.x < 200 and -200 < point.y < 200`, on the
rounded component reads. -/
def inside (point : vector) : Bool :=
  decide (-200 < point.x ∧ point.x < 200 ∧ -200 < point.y ∧ point.y < 200)

/-- Prop form of `inside`. -/
def insideP (point : vector) : Prop :=
  -200 < point.x ∧ point.x < 200 ∧ -200 < point.y ∧ point.y < 200

/-- `bird.y -= 5`: read the rounded `y`, subtract 5, store through the
setter. -/
def moveBird (b : vector) : Except Err vector := b.setY (b.y - 5)

/-- Pure form of `bird.y -= 5` on an unfrozen vector. -/
def birdMoved (b : vector) : vector := { b with _y := b.y - 5 }

/-- Pure form of `ball.x -= 3` on an unfrozen vector. -/
def ballMoved (b : vector) : vector := { b with _x := b.x - 3 }

/-- `for ball in balls: ball.x -= 3`: each ball reads its rounded `x`,
subtracts 3 and stores through the setter. -/
def moveBalls : List vector → Except Err (List vector)
  | [] => .ok []
  | b :: rest =>
    match b.setX (b.x - 3) with
    | .error e => .error e
    | .ok b' =>
      match moveBalls rest with
      | .error e => .error e
      | .ok rest' => .ok (b' :: rest')

/-- The spawn step: `if randrange(15) == 0: balls.append(vector(199, y))`
with `y = randrange(-199, 199)`. -/
def spawn (balls : List vector) (r : ℕ) (yr : ℤ) : List vector :=
  if r = 0 then balls ++ [vector.init 199 (yr : ℚ)] else balls

/-- The eviction step: `if len(balls) > 30: balls.pop(0)`. -/
def evict (balls : List vector) : List vector :=
  if 30 < balls.length then balls.tail else balls

/-- The squared distance between the unrounded positions: the square of the
`abs(ball - bird)` of the source. -/
def sqDist (ball bird : vector) : ℚ :=
  (ball._x - bird._x) ^ 2 + (ball._y - bird._y) ^ 2

/-- `dodge = abs(ball - bird) > 15`: the difference is built by
`__sub__` (copy, then in-place subtraction) and compared through the squared
form of `__abs__` (`> 15` on the root becomes `> 225` on the square).  The
error branch is unreachable because the copy is unfrozen. -/
def dodge (ball bird : vector) : Bool :=
  match ball.sub (.vec bird) with
  | .ok d => decide (225 < vector.absSq d)
  | .error _ => false

/-- One body of `draw` up to the render calls: move the bird, move the
balls, maybe spawn, compute `alive` over the whole (pre-eviction) ball list,
evict the oldest ball if over capacity.  Returns the new state and `alive`. -/
def draw (s : SimState) (r : ℕ) (yr : ℤ) : Except Err (SimState × Bool) :=
  match moveBird s.bird with
  | .error e => .error e
  | .ok bird =>
    match moveBalls s.balls with
    | .error e => .error e
    | .ok moved =>
      let balls := spawn moved r yr
      let alive := inside bird && balls.all (fun b => dodge b bird)
      .ok (⟨bird, evict balls⟩, alive)

/-- Control state of the loop: `RUNNING` while `draw` keeps rescheduling
itself, `ENDED` (terminal) once a tick computed `alive = False` and did not
reschedule. -/
inductive Mode where
  | RUNNING
  | ENDED
deriving DecidableEq

/-- The game world: simulation state plus the control state of the loop. -/
structure World where
  bird : vector
  balls : List vector
  mode : Mode
deriving DecidableEq

/-- The delay of `ontimer(draw, 50)`, in milliseconds. -/
def delayMs : ℕ := 50

/-- One scheduled tick.  In `ENDED` no tick was scheduled, so the world is
unchanged and nothing new is scheduled.  In `RUNNING` the tick runs `draw`;
`ontimer(draw, 50)` is called iff `alive`, reflected as `some delayMs`; a
tick with `alive = False` leaves the loop in the terminal `ENDED` mode. -/
def tick (w : World) (r : ℕ) (yr : ℤ) : Except Err (World × Option ℕ) :=
  match w.mode with
  | .ENDED => .ok (w, none)
  | .RUNNING =>
    match draw ⟨w.bird, w.balls⟩ r yr with
    | .error e => .error e
    | .ok (s, alive) =>
      .ok (⟨s.bird, s.balls, if alive then .RUNNING else .ENDED⟩,
        if alive then some delayMs else none)

/-- A click event once `start` has bound `tap`: the handler stays bound
whatever the mode, so `tap` runs in `RUNNING` and in `ENDED` alike. -/
def tapEvent (w : World) : Except Err World :=
  match tapMove w.bird with
  | .error e => .error e
  | .ok b => .ok { w with bird := b }

/-- Runs the self-scheduling loop over a list of per-tick random draws,
starting each next tick only when the previous one computed `alive = True`
(the source only reaches the next `draw` through `ontimer`). -/
def runDraws (s : SimState) : List (ℕ × ℤ) → Except Err SimState
  | [] => .ok s
  | (r, yr) :: rest =>
    match draw s r yr with
    | .error e => .error e
    | .ok (s', alive) => if alive then runDraws s' rest else .ok s'

/-- Written from the specification wording, for comparison with the source
`__eq__`: equality is true iff the rounded components match exactly, and a
comparison against a non-vector signals a type mismatch instead of silently
returning a boolean. -/
def eqAsSpecified (v : vector) (other : Operand) : Except Err Bool :=
  match other with
  | .vec w => .ok (decide (v.x = w.x ∧ v.y = w.y))
  | .scalar _ => .error .typeMismatch

/-- Thirty-one tick inputs whose spawn draw always fires; the ball of tick
i (i = 0..30) spawns at height i + 1. -/
def ticks31 : List (ℕ × ℤ) := (List.range 31).map (fun i => (0, (i : ℤ) + 1))

/-- The thirty survivors of the 31-spawn run: the spawn of tick i (1-based,
height i) for i = 2..31, each moved left 3 units on every later tick, oldest
first.  Entry k (k = 0..29) is the spawn of tick k + 2 at
x = 199 - 3 * (29 - k) = 112 + 3k. -/
def expected30 : List vector :=
  (List.range 30).map (fun k => vector.init (112 + 3 * (k : ℚ)) ((k : ℚ) + 2))

example : vector.init 1 2 = ⟨1, 2, none⟩ := rfl
example : (vector.init (1 + 1 / 10 ^ 10) 2).x = 1 := by with_unfolding_all decide
example : ((vector.init 1 2).hash).1._hash.isSome = true := by with_unfolding_all decide
example : (vector.init 1 2).setX 7 = .ok ⟨7, 2, none⟩ := by with_unfolding_all decide
example : ((vector.init 1 2).hash).1.setX 7 = .error .frozenMutation := by with_unfolding_all decide

example : moveBird (vector.init 0 0) = .ok (vector.init 0 (-5)) := by
  with_unfolding_all decide
example : (draw ⟨vector.init 0 0, [vector.init 10 3]⟩ 1 0) =
    .ok (⟨vector.init 0 (-5), [vector.init 7 3]⟩, false) := by
  with_unfolding_all decide
example : (draw ⟨vector.init 0 0, [vector.init 23 0]⟩ 1 0) =
    .ok (⟨vector.init 0 (-5), [vector.init 20 0]⟩, true) := by
  with_unfolding_all decide

/-! Helper lemmas about the mutating methods. -/

theorem setX_ok (v : vector) (a : ℚ) (h : v._hash = none) :
    v.setX a = .ok { v with _x := a } := by
  simp [vector.setX, h]

theorem setY_ok (v : vector) (a : ℚ) (h : v._hash = none) :
    v.setY a = .ok { v with _y := a } := by
  simp [vector.setY, h]

theorem copy_hash (v : vector) : (v.copy)._hash = none := rfl

theorem hash_sets_flag (v : vector) : (v.hash.1)._hash ≠ none := by
  cases hv : v._hash <;> simp [vector.hash, hv]

theorem hash_frozen_stable (v : vector) (h : ℤ) (hv : v._hash = some h) :
    v.hash = (v, h) := by
  simp [vector.hash, hv]

theorem iadd_ok (v : vector) (o : Operand) (h : v._hash = none) :
    ∃ w, v.iadd o = .ok w ∧ w._hash = v._hash := by
  cases o <;> simp [vector.iadd, h]

theorem isub_ok (v : vector) (o : Operand) (h : v._hash = none) :
    ∃ w, v.isub o = .ok w ∧ w._hash = v._hash := by
  cases o <;> simp [vector.isub, h]

theorem imul_ok (v : vector) (o : Operand) (h : v._hash = none) :
    ∃ w, v.imul o = .ok w ∧ w._hash = v._hash := by
  cases o <;> simp [vector.imul, h]

theorem idiv_ok (v : vector) (o : Operand) (h : v._hash = none) :
    ∃ w, v.idiv o = .ok w ∧ w._hash = v._hash := by
  cases o <;> simp [vector.idiv, h]

theorem rotate_ok (v : vector) (c s : ℚ) (h : v._hash = none) :
    ∃ w, v.rotate c s = .ok w ∧ w._hash = v._hash := by
  simp [vector.rotate, h]

theorem setX_frozen (v : vector) (a : ℚ) (h : v._hash ≠ none) :
    v.setX a = .error .frozenMutation := by
  simp [vector.setX, Option.isSome_iff_ne_none.mpr h]

theorem setY_frozen (v : vector) (a : ℚ) (h : v._hash ≠ none) :
    v.setY a = .error .frozenMutation := by
  simp [vector.setY, Option.isSome_iff_ne_none.mpr h]

theorem iadd_frozen (v : vector) (o : Operand) (h : v._hash ≠ none) :
    v.iadd o = .error .frozenMutation := by
  simp [vector.iadd, Option.isSome_iff_ne_none.mpr h]

theorem isub_frozen (v : vector) (o : Operand) (h : v._hash ≠ none) :
    v.isub o = .error .frozenMutation := by
  simp [vector.isub, Option.isSome_iff_ne_none.mpr h]

theorem imul_frozen (v : vector) (o : Operand) (h : v._hash ≠ none) :
    v.imul o = .error .frozenMutation := by
  simp [vector.imul, Option.isSome_iff_ne_none.mpr h]

theorem idiv_frozen (v : vector) (o : Operand) (h : v._hash ≠ none) :
    v.idiv o = .error .frozenMutation := by
  simp [vector.idiv, Option.isSome_iff_ne_none.mpr h]

theorem rotate_frozen (v : vector) (c s : ℚ) (h : v._hash ≠ none) :
    v.rotate c s = .error .frozenMutation := by
  simp [vector.rotate, Option.isSome_iff_ne_none.mpr h]

theorem setX_ok_inv (v w : vector) (a : ℚ) (h : v.setX a = .ok w) :
    v._hash = none ∧ w._hash = v._hash := by
  by_cases hv : v._hash = none
  · rw [setX_ok v a hv] at h
    cases h
    exact ⟨hv, rfl⟩
  · rw [setX_frozen v a hv] at h
    cases h

theorem setY_ok_inv (v w : vector) (a : ℚ) (h : v.setY a = .ok w) :
    v._hash = none ∧ w._hash = v._hash := by
  by_cases hv : v._hash = none
  · rw [setY_ok v a hv] at h
    cases h
    exact ⟨hv, rfl⟩
  · rw [setY_frozen v a hv] at h
    cases h

theorem iadd_ok_inv (v w : vector) (o : Operand) (h : v.iadd o = .ok w) :
    v._hash = none ∧ w._hash = v._hash := by
  by_cases hv : v._hash = none
  · obtain ⟨u, hu, hu2⟩ := iadd_ok v o hv
    rw [hu] at h
    cases h
    exact ⟨hv, hu2⟩
  · rw [iadd_frozen v o hv] at h
    cases h

theorem isub_ok_inv (v w : vector) (o : Operand) (h : v.isub o = .ok w) :
    v._hash = none ∧ w._hash = v._hash := by
  by_cases hv : v._hash = none
  · obtain ⟨u, hu, hu2⟩ := isub_ok v o hv
    rw [hu] at h
    cases h
    exact ⟨hv, hu2⟩
  · rw [isub_frozen v o hv] at h
    cases h

theorem imul_ok_inv (v w : vector) (o : Operand) (h : v.imul o = .ok w) :
    v._hash = none ∧ w._hash = v._hash := by
  by_cases hv : v._hash = none
  · obtain ⟨u, hu, hu2⟩ := imul_ok v o hv
    rw [hu] at h
    cases h
    exact ⟨hv, hu2⟩
  · rw [imul_frozen v o hv] at h
    cases h

theorem idiv_ok_inv (v w : vector) (o : Operand) (h : v.idiv o = .ok w) :
    v._hash = none ∧ w._hash = v._hash := by
  by_cases hv : v._hash = none
  · obtain ⟨u, hu, hu2⟩ := idiv_ok v o hv
    rw [hu] at h
    cases h
    exact ⟨hv, hu2⟩
  · rw [idiv_frozen v o hv] at h
    cases h

theorem rotate_ok_inv (v w : vector) (c s : ℚ) (h : v.rotate c s = .ok w) :
    v._hash = none ∧ w._hash = v._hash := by
  by_cases hv : v._hash = none
  · obtain ⟨u, hu, hu2⟩ := rotate_ok v c s hv
    rw [hu] at h
    cases h
    exact ⟨hv, hu2⟩
  · rw [rotate_frozen v c s hv] at h
    cases h

/-- Claim C1: while a vector has never been hashed every in-place mutation
(`setX`, `setY`, in-place add, sub, mul, div, rotate) succeeds; after the
first `hash` call every subsequent in-place mutation fails with the
frozen-mutation error; hashing is the only operation that sets the frozen
flag (every successful mutation leaves the flag as it was) and the
transition is irreversible (hashing a frozen vector returns it unchanged
with the cached value). -/
theorem freeze_discipline :
    (∀ (v : vector) (a : ℚ) (o : Operand) (c s : ℚ), v._hash = none →
      (∃ w, v.setX a = .ok w) ∧ (∃ w, v.setY a = .ok w) ∧
      (∃ w, v.iadd o = .ok w) ∧ (∃ w, v.isub o = .ok w) ∧
      (∃ w, v.imul o = .ok w) ∧ (∃ w, v.idiv o = .ok w) ∧
      (∃ w, v.rotate c s = .ok w)) ∧
    (∀ (v : vector) (a : ℚ) (o : Operand) (c s : ℚ), v._hash ≠ none →
      v.setX a = .error .frozenMutation ∧ v.setY a = .error .frozenMutation ∧
      v.iadd o = .error .frozenMutation ∧ v.isub o = .error .frozenMutation ∧
      v.imul o = .error .frozenMutation ∧ v.idiv o = .error .frozenMutation ∧
      v.rotate c s = .error .frozenMutation) ∧
    (∀ v : vector, (v.hash.1)._hash ≠ none) ∧
    (∀ (v w : vector) (a : ℚ) (o : Operand) (c s : ℚ),
      (v.setX a = .ok w → w._hash = v._hash) ∧
      (v.setY a = .ok w → w._hash = v._hash) ∧
      (v.iadd o = .ok w → w._hash = v._hash) ∧
      (v.isub o = .ok w → w._hash = v._hash) ∧
      (v.imul o = .ok w → w._hash = v._hash) ∧
      (v.idiv o = .ok w → w._hash = v._hash) ∧
      (v.rotate c s = .ok w → w._hash = v._hash)) ∧
    (∀ (v : vector) (h : ℤ), v._hash = some h → v.hash = (v, h)) := by
  refine ⟨?_, ?_, hash_sets_flag, ?_, hash_frozen_stable⟩
  · intro v a o c s h
    refine ⟨⟨_, setX_ok v a h⟩, ⟨_, setY_ok v a h⟩, ?_, ?_, ?_, ?_, ?_⟩
    · obtain ⟨w, hw, _⟩ := iadd_ok v o h
      exact ⟨w, hw⟩
    · obtain ⟨w, hw, _⟩ := isub_ok v o h
      exact ⟨w, hw⟩
    · obtain ⟨w, hw, _⟩ := imul_ok v o h
      exact ⟨w, hw⟩
    · obtain ⟨w, hw, _⟩ := idiv_ok v o h
      exact ⟨w, hw⟩
    · obtain ⟨w, hw, _⟩ := rotate_ok v c s h
      exact ⟨w, hw⟩
  · intro v a o c s h
    exact ⟨setX_frozen v a h, setY_frozen v a h, iadd_frozen v o h, isub_frozen v o h,
      imul_frozen v o h, idiv_frozen v o h, rotate_frozen v c s h⟩
  · intro v w a o c s
    exact ⟨fun h => (setX_ok_inv v w a h).2, fun h => (setY_ok_inv v w a h).2,
      fun h => (iadd_ok_inv v w o h).2, fun h => (isub_ok_inv v w o h).2,
      fun h => (imul_ok_inv v w o h).2, fun h => (idiv_ok_inv v w o h).2,
      fun h => (rotate_ok_inv v w c s h).2⟩

/-- Concrete witness for C1: the vector `(1, 2)` accepts a mutation before
hashing, and its hashed form rejects one. -/
theorem freeze_discipline_witness :
    (∃ w, (vector.init 1 2).setX 3 = .ok w) ∧
    ((vector.init 1 2).hash.1).setX 3 = .error .frozenMutation :=
  ⟨(freeze_discipline.1 (vector.init 1 2) 3 (.scalar 1) 0 1 rfl).1,
    (freeze_discipline.2.1 ((vector.init 1 2).hash.1) 3 (.scalar 1) 0 1
      (by with_unfolding_all decide)).1⟩

/-- Claim C9: on a frozen vector every in-place mutation fails with the
frozen-mutation error before any write happens: the failing call returns no
updated state at all, and a successful mutating call can only have come from
an unfrozen receiver. -/
theorem frozen_mutation_atomic :
    (∀ (v : vector) (h : ℤ), v._hash = some h →
      ∀ (a : ℚ) (o : Operand) (c s : ℚ),
        v.setX a = .error .frozenMutation ∧ v.setY a = .error .frozenMutation ∧
        v.iadd o = .error .frozenMutation ∧ v.isub o = .error .frozenMutation ∧
        v.imul o = .error .frozenMutation ∧ v.idiv o = .error .frozenMutation ∧
        v.rotate c s = .error .frozenMutation) ∧
    (∀ (v w : vector) (a : ℚ), v.setX a = .ok w → v._hash = none) ∧
    (∀ (v w : vector) (a : ℚ), v.setY a = .ok w → v._hash = none) ∧
    (∀ (v w : vector) (o : Operand), v.iadd o = .ok w → v._hash = none) ∧
    (∀ (v w : vector) (o : Operand), v.isub o = .ok w → v._hash = none) ∧
    (∀ (v w : vector) (o : Operand), v.imul o = .ok w → v._hash = none) ∧
    (∀ (v w : vector) (o : Operand), v.idiv o = .ok w → v._hash = none) ∧
    (∀ (v w : vector) (c s : ℚ), v.rotate c s = .ok w → v._hash = none) := by
  refine ⟨?_, ?_, ?_, ?_, ?_, ?_, ?_, ?_⟩
  · intro v h hv a o c s
    have hne : v._hash ≠ none := by simp [hv]
    exact ⟨setX_frozen v a hne, setY_frozen v a hne, iadd_frozen v o hne,
      isub_frozen v o hne, imul_frozen v o hne, idiv_frozen v o hne,
      rotate_frozen v c s hne⟩
  · exact fun v w a h => (setX_ok_inv v w a h).1
  · exact fun v w a h => (setY_ok_inv v w a h).1
  · exact fun v w o h => (iadd_ok_inv v w o h).1
  · exact fun v w o h => (isub_ok_inv v w o h).1
  · exact fun v w o h => (imul_ok_inv v w o h).1
  · exact fun v w o h => (idiv_ok_inv v w o h).1
  · exact fun v w c s h => (rotate_ok_inv v w c s h).1

/-- Concrete witness for C9: the hashed vector `(1, 2)` rejects a rotation
with the frozen-mutation error. -/
theorem frozen_mutation_atomic_witness :
    ((vector.init 1 2).hash.1).rotate 0 1 = .error .frozenMutation :=
  (frozen_mutation_atomic.1 ((vector.init 1 2).hash.1)
    (pairHash (vector.init 1 2).x (vector.init 1 2).y) rfl 3 (.scalar 1) 0 1).2.2.2.2.2.2

/-- Claim C10: the non-mutating operations (`add`, `sub`, `mul`, `div`,
`neg`, `copy`) work on a fresh unfrozen copy, so they succeed for every
receiver, frozen or not, never return the frozen-mutation error, and always
deliver a new unfrozen vector; `copy` preserves the unrounded components. -/
theorem nonmutating_ops_safe :
    ∀ (v : vector) (o : Operand),
      (∃ w, v.add o = .ok w ∧ w._hash = none) ∧
      (∃ w, v.sub o = .ok w ∧ w._hash = none) ∧
      (∃ w, v.mul o = .ok w ∧ w._hash = none) ∧
      (∃ w, v.div o = .ok w ∧ w._hash = none) ∧
      (v.neg)._hash = none ∧
      (v.copy)._hash = none ∧ (v.copy)._x = v._x ∧ (v.copy)._y = v._y := by
  intro v o
  refine ⟨?_, ?_, ?_, ?_, rfl, rfl, rfl, rfl⟩
  · obtain ⟨w, hw, hw2⟩ := iadd_ok v.copy o (copy_hash v)
    exact ⟨w, hw, hw2.trans (copy_hash v)⟩
  · obtain ⟨w, hw, hw2⟩ := isub_ok v.copy o (copy_hash v)
    exact ⟨w, hw, hw2.trans (copy_hash v)⟩
  · obtain ⟨w, hw, hw2⟩ := imul_ok v.copy o (copy_hash v)
    exact ⟨w, hw, hw2.trans (copy_hash v)⟩
  · obtain ⟨w, hw, hw2⟩ := idiv_ok v.copy o (copy_hash v)
    exact ⟨w, hw, hw2.trans (copy_hash v)⟩

/-- Claim C8: the component getters return the stored slot rounded to 9
decimal digits while the slot itself keeps the full-precision value, and the
(squared) magnitude is computed from the unrounded slots, so a component
with more than 9 digits of precision contributes fully to the magnitude but
not to the read component.  The concrete instance stores `x = 1 + 10⁻¹⁰`:
its getter reads `1`, yet the squared magnitude differs from the squared
magnitude of the rounded reads. -/
theorem precision_rounding :
    (∀ v : vector, v.x = round9 v._x ∧ v.y = round9 v._y) ∧
    (∀ x y : ℚ, (vector.init x y)._x = x ∧ (vector.init x y)._y = y ∧
      vector.absSq (vector.init x y) = x ^ 2 + y ^ 2) ∧
    (vector.init (1 + 1 / 10 ^ 10) 2)._x = 1 + 1 / 10 ^ 10 ∧
    (vector.init (1 + 1 / 10 ^ 10) 2).x = 1 ∧
    vector.absSq (vector.init (1 + 1 / 10 ^ 10) 2) = (1 + 1 / 10 ^ 10) ^ 2 + 2 ^ 2 ∧
    vector.absSq (vector.init (1 + 1 / 10 ^ 10) 2) ≠
      (vector.init (1 + 1 / 10 ^ 10) 2).x ^ 2 + (vector.init (1 + 1 / 10 ^ 10) 2).y ^ 2 := by
  refine ⟨fun v => ⟨rfl, rfl⟩, fun x y => ⟨rfl, rfl, rfl⟩, rfl, ?_, rfl, ?_⟩
  · with_unfolding_all decide
  · with_unfolding_all decide

/-- Claim C5: when the rounded components of two vectors differ in exactly
one coordinate, the source inequality operator (logical AND between the
component mismatches) reports `v != w` as `False`, while the equality
operator reports `v == w` as `False` as well, so on such pairs `!=` is not
the negation of `==`. -/
theorem ne_uses_and (v w : vector)
    (h : (v.x = w.x ∧ v.y ≠ w.y) ∨ (v.x ≠ w.x ∧ v.y = w.y)) :
    vector.pyNe v (.vec w) = false ∧ vector.pyEq v (.vec w) = false := by
  rcases h with ⟨h1, h2⟩ | ⟨h1, h2⟩ <;>
    simp [vector.pyNe, vector.neOp, vector.pyEq, vector.eqOp, h1, h2]

/-- Concrete witness for C5: the vectors `(1, 2)` and `(1, 3)` differ only
in the second coordinate, and both `!=` and `==` answer `False`. -/
theorem ne_uses_and_witness :
    vector.pyNe (vector.init 1 2) (.vec (vector.init 1 3)) = false ∧
    vector.pyEq (vector.init 1 2) (.vec (vector.init 1 3)) = false :=
  ne_uses_and (vector.init 1 2) (vector.init 1 3)
    (Or.inl ⟨by with_unfolding_all decide, by with_unfolding_all decide⟩)

/-- Counterexample to claim C7 at the concrete input `vector(1, 2) == 5`:
the source `__eq__` answers the `NotImplemented` sentinel, upon which the
interpreter falls back to identity and the comparison silently evaluates to
`False` — no error is signalled, unlike the behaviour the claim specifies. -/
theorem eq_non_vector_counterexample :
    vector.eqOp (vector.init 1 2) (.scalar 5) = .notImplemented ∧
    vector.pyEq (vector.init 1 2) (.scalar 5) = false ∧
    eqAsSpecified (vector.init 1 2) (.scalar 5) = .error .typeMismatch := by
  exact ⟨rfl, rfl, rfl⟩

/-- Claim C7 as amended: for a vector operand the comparison is true iff the
rounded components match exactly; for a non-vector operand `__eq__` returns
the `NotImplemented` sentinel and the comparison silently evaluates to
`False` (it is not an error, and it never answers `True`). -/
theorem eq_operand_behaviour :
    ∀ (v w : vector) (q : ℚ),
      (vector.pyEq v (.vec w) = true ↔ (v.x = w.x ∧ v.y = w.y)) ∧
      vector.eqOp v (.scalar q) = .notImplemented ∧
      vector.pyEq v (.scalar q) = false := by
  intro v w q
  exact ⟨by simp [vector.pyEq, vector.eqOp], rfl, rfl⟩

/-! Helper lemmas about the game loop. -/

theorem moveBird_ok (b : vector) (h : b._hash = none) :
    moveBird b = .ok (birdMoved b) := by
  rw [moveBird, setY_ok b (b.y - 5) h]
  rfl

theorem moveBalls_ok : ∀ (bs : List vector), (∀ b ∈ bs, b._hash = none) →
    moveBalls bs = .ok (bs.map ballMoved)
  | [], _ => rfl
  | b :: rest, h => by
    have hb : b._hash = none := h b (List.mem_cons_self b rest)
    have hr := moveBalls_ok rest (fun b' hb' => h b' (List.mem_cons_of_mem b hb'))
    rw [moveBalls, setX_ok b (b.x - 3) hb, hr]
    rfl

theorem draw_ok (s : SimState) (r : ℕ) (yr : ℤ) (h1 : s.bird._hash = none)
    (h2 : ∀ b ∈ s.balls, b._hash = none) :
    draw s r yr = .ok
      (⟨birdMoved s.bird, evict (spawn (s.balls.map ballMoved) r yr)⟩,
        inside (birdMoved s.bird) &&
          (spawn (s.balls.map ballMoved) r yr).all
            (fun b => dodge b (birdMoved s.bird))) := by
  rw [draw, moveBird_ok s.bird h1, moveBalls_ok s.balls h2]

theorem dodge_iff (ball bird : vector) :
    dodge ball bird = true ↔ 225 < sqDist ball bird := by
  simp [dodge, vector.sub, vector.copy, vector.init, vector.isub, vector.absSq, sqDist]

theorem inside_iff (p : vector) : inside p = true ↔ insideP p := by
  simp [inside, insideP]

theorem spawn_length (balls : List vector) (r : ℕ) (yr : ℤ) :
    (spawn balls r yr).length ≤ balls.length + 1 := by
  rw [spawn]
  split <;> simp

theorem evict_length (balls : List vector) (h : balls.length ≤ 31) :
    (evict balls).length ≤ 30 := by
  rw [evict]
  split
  · next hgt =>
    simp only [List.length_tail]
    omega
  · next hle => omega

/-- Claim C2: on every tick, after the move and spawn steps, `alive` is true
iff the moved bird lies strictly inside the playfield box (both rounded
coordinates strictly between -200 and 200) and every ball of the
pre-eviction collection — the moved balls plus the ball possibly spawned
this tick — is at Euclidean distance strictly greater than 15 from the
moved bird (stated on squared distances: `225 < sqDist`). -/
theorem alive_characterisation (s : SimState) (r : ℕ) (yr : ℤ)
    (h1 : s.bird._hash = none) (h2 : ∀ b ∈ s.balls, b._hash = none)
    (s' : SimState) (alive : Bool)
    (hdraw : draw s r yr = .ok (s', alive)) :
    alive = true ↔
      (insideP (birdMoved s.bird) ∧
        ∀ b ∈ spawn (s.balls.map ballMoved) r yr,
          225 < sqDist b (birdMoved s.bird)) := by
  rw [draw_ok s r yr h1 h2] at hdraw
  simp only [Except.ok.injEq, Prod.mk.injEq] at hdraw
  obtain ⟨-, halive⟩ := hdraw
  rw [← halive]
  simp [List.all_eq_true, dodge_iff, inside_iff]

/-- Concrete witness for C2: bird at the origin with a single ball at
`(23, 0)`; after the moves the ball sits at `(20, 0)`, distance 20 from the
bird at `(0, -5)` is above 15 and the bird is inside, so the tick reports
`alive = true`. -/
theorem alive_characterisation_witness :
    true = true ↔
      (insideP (birdMoved (vector.init 0 0)) ∧
        ∀ b ∈ spawn ([vector.init 23 0].map ballMoved) 1 0,
          225 < sqDist b (birdMoved (vector.init 0 0))) :=
  alive_characterisation ⟨vector.init 0 0, [vector.init 23 0]⟩ 1 0 rfl
    (by simp [vector.init])
    ⟨vector.init 0 (-5), [vector.init 20 0]⟩ true
    (by with_unfolding_all decide)

/-- Claim C3: the ball list keeps at most 30 entries at the end of every
completed tick (the bound is preserved by `draw`); at most one ball is
appended per tick, at the right edge x = 199, exactly when the spawn draw
is 0; when the pre-eviction length exceeds 30 exactly the single oldest
ball (index 0) is removed; and the concrete 31-spawn run from the empty
list ends with exactly the 30 most recently spawned balls, oldest first. -/
theorem capacity_discipline :
    (∀ (s : SimState) (r : ℕ) (yr : ℤ) (s' : SimState) (alive : Bool),
        s.bird._hash = none → (∀ b ∈ s.balls, b._hash = none) →
        draw s r yr = .ok (s', alive) → s.balls.length ≤ 30 →
        s'.balls.length ≤ 30) ∧
    (∀ (balls : List vector) (r : ℕ) (yr : ℤ),
        (r ≠ 0 → spawn balls r yr = balls) ∧
        (r = 0 → spawn balls r yr = balls ++ [vector.init 199 (yr : ℚ)] ∧
          (vector.init 199 (yr : ℚ))._x = 199)) ∧
    (∀ balls : List vector, 30 < balls.length → evict balls = balls.tail) ∧
    (∀ balls : List vector, balls.length ≤ 30 → evict balls = balls) ∧
    runDraws ⟨vector.init 0 0, []⟩ ticks31 =
      .ok ⟨vector.init 0 (-155), expected30⟩ ∧
    expected30.length = 30 := by
  refine ⟨?_, ?_, ?_, ?_, ?_, by with_unfolding_all decide⟩
  · intro s r yr s' alive h1 h2 hdraw hlen
    rw [draw_ok s r yr h1 h2] at hdraw
    simp only [Except.ok.injEq, Prod.mk.injEq] at hdraw
    obtain ⟨hs, -⟩ := hdraw
    rw [← hs]
    refine evict_length _ ?_
    have := spawn_length (s.balls.map ballMoved) r yr
    simp only [List.length_map] at this
    omega
  · intro balls r yr
    constructor
    · intro h
      simp [spawn, h]
    · intro h
      exact ⟨by simp [spawn, h], rfl⟩
  · intro balls h
    simp [evict, h]
  · intro balls h
    have : ¬ 30 < balls.length := by omega
    simp [evict, this]
  · with_unfolding_all decide

/-- Concrete witness for C3: a tick on the empty ball list with a
non-spawning draw keeps the list within capacity. -/
theorem capacity_discipline_witness :
    (⟨vector.init 0 (-5), ([] : List vector)⟩ : SimState).balls.length ≤ 30 :=
  capacity_discipline.1 ⟨vector.init 0 0, []⟩ 1 0 ⟨vector.init 0 (-5), []⟩ true rfl
    (by simp) (by with_unfolding_all decide) (by decide)

/-- Claim C4: a tick taken in the running mode schedules the next tick
(after the fixed 50 ms delay) iff it computed `alive = true`; a tick with
`alive = false` puts the loop in the terminal ended mode and schedules
nothing; and in the ended mode nothing is ever scheduled again by the loop
itself. -/
theorem reschedule_iff_alive :
    (∀ (w : World) (r : ℕ) (yr : ℤ) (s : SimState) (alive : Bool),
        w.mode = .RUNNING → draw ⟨w.bird, w.balls⟩ r yr = .ok (s, alive) →
        ∃ (w' : World) (sched : Option ℕ),
          tick w r yr = .ok (w', sched) ∧
          (sched = some delayMs ↔ alive = true) ∧
          (alive = false → w'.mode = .ENDED ∧ sched = none) ∧
          (alive = true → w'.mode = .RUNNING ∧ sched = some delayMs)) ∧
    (∀ (w : World) (r : ℕ) (yr : ℤ), w.mode = .ENDED →
        tick w r yr = .ok (w, none)) := by
  constructor
  · intro w r yr s alive hmode hdraw
    refine ⟨⟨s.bird, s.balls, if alive then .RUNNING else .ENDED⟩,
      if alive then some delayMs else none, ?_, ?_, ?_, ?_⟩
    · rw [tick, hmode, hdraw]
    · cases alive <;> simp
    · cases alive <;> simp
    · cases alive <;> simp
  · intro w r yr hmode
    rw [tick, hmode]

/-- Concrete witness for C4: a running world whose ball at `(10, 3)` is
within distance 15 after the moves, so the tick reports `alive = false`,
ends the loop and schedules nothing; and a tick in the ended world leaves
it unchanged and schedules nothing. -/
theorem reschedule_iff_alive_witness :
    (∃ (w' : World) (sched : Option ℕ),
      tick ⟨vector.init 0 0, [vector.init 10 3], .RUNNING⟩ 1 0 = .ok (w', sched) ∧
      (sched = some delayMs ↔ false = true) ∧
      (false = false → w'.mode = .ENDED ∧ sched = none) ∧
      (false = true → w'.mode = .RUNNING ∧ sched = some delayMs)) ∧
    tick ⟨vector.init 0 0, [], .ENDED⟩ 1 0 = .ok (⟨vector.init 0 0, [], .ENDED⟩, none) :=
  ⟨reschedule_iff_alive.1 ⟨vector.init 0 0, [vector.init 10 3], .RUNNING⟩ 1 0
      ⟨vector.init 0 (-5), [vector.init 7 3]⟩ false rfl (by with_unfolding_all decide),
    reschedule_iff_alive.2 ⟨vector.init 0 0, [], .ENDED⟩ 1 0 rfl⟩

/-- Counterexample to claim C6 at a concrete input: the click handler stays
bound after the loop has ended, so a tap in the ended world still displaces
the bird by `(0, 30)` — the claim that a tap has no effect on the position
once ended is false of the source. -/
theorem tap_after_end_counterexample :
    tapEvent ⟨vector.init 0 0, [], .ENDED⟩ = .ok ⟨vector.init 0 30, [], .ENDED⟩ ∧
    (vector.init 0 30 : vector) ≠ vector.init 0 0 := by
  constructor
  · with_unfolding_all decide
  · with_unfolding_all decide

/-- Claim C6 as amended: whenever the tap handler runs — in the running
mode, and equally after the loop has ended, since the handler is never
unbound — it applies the fixed instantaneous displacement `(0, 30)` to the
stored position of the (unfrozen) bird, without error and without touching
the ball list or the mode. -/
theorem tap_displacement (w : World) (h : w.bird._hash = none) :
    ∃ b' : vector, tapEvent w = .ok { w with bird := b' } ∧
      b'._x = w.bird._x ∧ b'._y = w.bird._y + 30 ∧ b'._hash = none ∧
      ({ w with bird := b' } : World).balls = w.balls ∧
      ({ w with bird := b' } : World).mode = w.mode := by
  have hb : tapMove w.bird = .ok { w.bird with _y := w.bird._y + 30 } := by
    simp [tapMove, vector.move, vector.iadd, h, up, vector.init]
  exact ⟨{ w.bird with _y := w.bird._y + 30 }, by rw [tapEvent, hb], rfl, rfl, h, rfl, rfl⟩

/-- Concrete witness for C6 as amended: the tap on a running world with the
bird at `(1, 2)` moves it to `(1, 32)`. -/
theorem tap_displacement_witness :
    ∃ b' : vector,
      tapEvent ⟨vector.init 1 2, [], .RUNNING⟩ =
        .ok { (⟨vector.init 1 2, [], .RUNNING⟩ : World) with bird := b' } ∧
      b'._x = (vector.init 1 2)._x ∧ b'._y = (vector.init 1 2)._y + 30 ∧
      b'._hash = none ∧
      ({ (⟨vector.init 1 2, [], .RUNNING⟩ : World) with bird := b' } : World).balls =
        (⟨vector.init 1 2, [], Mode.RUNNING⟩ : World).balls ∧
      ({ (⟨vector.init 1 2, [], .RUNNING⟩ : World) with bird := b' } : World).mode =
        (⟨vector.init 1 2, [], Mode.RUNNING⟩ : World).mode :=
  tap_displacement ⟨vector.init 1 2, [], .RUNNING⟩ rfl
